import Mathlib

/-!
Verification of the pykeen sample: training loop, interaction contract,
prediction utilities and the deterioration experiment driver.

This file gives a shallow embedding of the Python sources of the repository
(`src/poem/training/training_loop.py`, `src/pykeen/utilities/prediction_utils.py`,
`src/pykeen/experiments/deteriorating_unleaking.py`) together with a model of the
interaction-function contract exercised by `tests/test_interactions.py`, and
proves or refutes the specification claims about them.

Floating point numbers are modelled as exact rationals `ℚ`; the opaque tensor
framework primitives (autograd, optimizers, `torch.norm`) are modelled as
abstract parameters, following the statement of the specification that they are
external collaborators.
-/

namespace PyKeen

/-! ## Training loop (`src/poem/training/training_loop.py`)

`TrainingLoop.train` is embedded as a pure function.  Mutable attributes of the
`TrainingLoop` object (`optimizer`, `training_instances`, `losses_per_epochs`)
form a `TrainState`; the opaque optimizer and instances objects are type
parameters.  The per-batch loss produced by the abstract `_process_batch`
(through the opaque autograd framework) is an oracle `lossOf : epoch → batch → ℚ`,
and the side effects performed on the framework per batch are recorded in a
trace of `Event`s. -/

/-- One observable side effect of the inner batch loop of `TrainingLoop.train`:
computing the batch loss via `_process_batch`, `optimizer.zero_grad()`,
`loss.backward()`, `optimizer.step()`, and clearing
`model.forward_constraint_applied`. -/
inductive Event where
  | computeLoss (epoch batch : Nat)
  | zeroGrad (epoch batch : Nat)
  | backward (epoch batch : Nat)
  | step (epoch batch : Nat)
  | clearConstraintFlag (epoch batch : Nat)
  deriving DecidableEq, Repr

/-- The events emitted while processing one batch, in program order:
`loss = self._process_batch(...)`, `self.optimizer.zero_grad()`,
`loss.backward()`, `self.optimizer.step()`,
`self.model.forward_constraint_applied = False`. -/
def batchEvents (epoch batch : Nat) : List Event :=
  [Event.computeLoss epoch batch, Event.zeroGrad epoch batch,
   Event.backward epoch batch, Event.step epoch batch,
   Event.clearConstraintFlag epoch batch]

/-- The early stopper handed to `train`: its `frequency` attribute and the
oracle for its (stateful) `should_stop()` method, indexed by the epoch at which
it is consulted. -/
structure EarlyStopper where
  frequency : Nat
  shouldStop : Nat → Bool

/-- Configuration of one call to `TrainingLoop.train`, with the opaque
collaborators abstracted: `lossOf e b` is the loss `_process_batch` returns for
batch `b` of epoch `e`, `newOptimizer` the optimizer built by
`optimizer_class(...)`, `instances` the result of `_create_instances()` and
`numInstances` its `num_instances` attribute. -/
structure TrainConfig (O I : Type) where
  numEpochs : Nat
  batchSize : Nat
  labelSmoothing : ℚ
  continueTraining : Bool
  computeMrLoss : Bool
  earlyStopper : Option EarlyStopper
  lossOf : Nat → Nat → ℚ
  newOptimizer : O
  instances : I
  numInstances : Nat

/-- The mutable attributes of the `TrainingLoop` object. -/
structure TrainState (O I : Type) where
  optimizer : Option O
  trainingInstances : Option I
  lossesPerEpochs : List ℚ
  deriving DecidableEq

/-- The two `ValueError`s `train` can raise. -/
inductive TrainErrorKind where
  | marginRankingWithLabelSmoothing
  | continueWithoutOptimizer
  deriving DecidableEq, Repr

/-- Number of batches the `DataLoader` yields per epoch:
`ceil(num_instances / batch_size)` (no `drop_last`). -/
def numBatches {O I : Type} (cfg : TrainConfig O I) : Nat :=
  (cfg.numInstances + cfg.batchSize - 1) / cfg.batchSize

/-- Accumulated loop data: the `losses_per_epochs` list, the event trace, the
epochs at which `early_stopper.should_stop()` was consulted, the number of
epoch bodies executed, and whether the early-stopping `return` was taken. -/
structure LoopState where
  losses : List ℚ
  events : List Event
  consulted : List Nat
  epochsRun : Nat
  stopped : Bool
  deriving DecidableEq

/-- The events of one epoch body: the inner `for batch in train_data_loader`
loop in order. -/
def epochEvents {O I : Type} (cfg : TrainConfig O I) (epoch : Nat) : List Event :=
  (List.range (numBatches cfg)).flatMap (fun b => batchEvents epoch b)

/-- The value of `current_epoch_loss` at the end of an epoch body: the sum of the batch
losses of that epoch. -/
def epochLossSum {O I : Type} (cfg : TrainConfig O I) (epoch : Nat) : ℚ :=
  ((List.range (numBatches cfg)).map (cfg.lossOf epoch)).sum

/-- One epoch body of the `for epoch in epochs` loop: process all batches,
append `current_epoch_loss / num_training_instances` to `losses_per_epochs`. -/
def runOneEpoch {O I : Type} (cfg : TrainConfig O I) (epoch : Nat) (s : LoopState) :
    LoopState :=
  { s with
    losses := s.losses ++ [epochLossSum cfg epoch / (cfg.numInstances : ℚ)]
    events := s.events ++ epochEvents cfg epoch
    epochsRun := s.epochsRun + 1 }

/-- The `for epoch in epochs` loop of `train`, including the early-stopping
check `early_stopper is not None and 0 == (epoch % early_stopper.frequency)
and early_stopper.should_stop()` and its early `return`.  `remaining` is the
number of epochs still to run. -/
def runEpochs {O I : Type} (cfg : TrainConfig O I) (epoch : Nat) :
    Nat → LoopState → LoopState
  | 0, s => s
  | remaining + 1, s =>
    let s' := runOneEpoch cfg epoch s
    match cfg.earlyStopper with
    | none => runEpochs cfg (epoch + 1) remaining s'
    | some es =>
      if epoch % es.frequency == 0 then
        let s'' := { s' with consulted := s'.consulted ++ [epoch] }
        if es.shouldStop epoch then { s'' with stopped := true }
        else runEpochs cfg (epoch + 1) remaining s''
      else runEpochs cfg (epoch + 1) remaining s'

/-- The data `train` produces on a non-raising run: the final attribute state
and the loop data (the returned value of `train` is `finalState.lossesPerEpochs`,
which equals `loop.losses`). -/
structure TrainResult (O I : Type) where
  finalState : TrainState O I
  loop : LoopState
  deriving DecidableEq

/-- The embedding of `TrainingLoop.train`.  The two `ValueError`s carry the attribute state at
the moment of raising (the exception propagates with the object unchanged). -/
def train {O I : Type} (cfg : TrainConfig O I) (st : TrainState O I) :
    Except (TrainErrorKind × TrainState O I) (TrainResult O I) :=
  if cfg.computeMrLoss ∧ cfg.labelSmoothing > 0 then
    .error (.marginRankingWithLabelSmoothing, st)
  else if ¬ cfg.continueTraining then
    let st1 : TrainState O I := { st with optimizer := some cfg.newOptimizer }
    let st2 : TrainState O I := { st1 with trainingInstances := some cfg.instances }
    let loop := runEpochs cfg 0 cfg.numEpochs
      { losses := st2.lossesPerEpochs, events := [], consulted := [],
        epochsRun := 0, stopped := false }
    .ok { finalState := { st2 with lossesPerEpochs := loop.losses }, loop := loop }
  else if st.optimizer.isNone then
    .error (.continueWithoutOptimizer, st)
  else
    let st2 : TrainState O I := { st with trainingInstances := some cfg.instances }
    let loop := runEpochs cfg 0 cfg.numEpochs
      { losses := st2.lossesPerEpochs, events := [], consulted := [],
        epochsRun := 0, stopped := false }
    .ok { finalState := { st2 with lossesPerEpochs := loop.losses }, loop := loop }

/-! ## Interaction functions (`pykeen.nn.modules`)

Modelled from the spec: the module `pykeen/nn/modules.py` defining the
`Interaction` base class is not part of the provided sources; only its test
suite `tests/test_interactions.py` is.  The spec states that the
interaction-function contract is "fully specified by its test suite already
present in the source (shape contracts per score_hrt/score_h/score_r/score_t,
slicing equivalence, broadcast-rule table)", so the model below follows those
test contracts.  A representation carries a prefix shape (a batch dimension
and a candidate dimension) over an abstract payload type (the suffix
dimensions); `forward` broadcasts the batch dimensions and applies the scalar
interaction kernel pointwise; the `score_*` methods unsqueeze their inputs,
call `forward`, and reshape (`view`) the result, and the slicing variants
chunk the candidate input and concatenate the chunk scores. -/

/-- Modelled from the spec: a representation tensor of prefix shape `(b, n)`
over payload type `σ` (the interaction-specific suffix dimensions).  Data is a
total function; only indices below the bounds are meaningful. -/
structure Rep (σ : Type) where
  b : Nat
  n : Nat
  data : Nat → Nat → σ

/-- Modelled from the spec: a batch representation tensor of prefix shape
`(b,)` as passed to the `score_*` methods. -/
structure BRep (σ : Type) where
  b : Nat
  data : Nat → σ

/-- Modelled from the spec: the 4-dimensional score tensor returned by
`forward` in broadcast mode. -/
structure Score4 (α : Type) where
  s1 : Nat
  s2 : Nat
  s3 : Nat
  s4 : Nat
  data : Nat → Nat → Nat → Nat → α

/-- Modelled from the spec: the 2-dimensional score tensor returned by the
`score_*` methods. -/
structure Score2 (α : Type) where
  rows : Nat
  cols : Nat
  data : Nat → Nat → α

/-- Modelled from the spec: an interaction function, reduced to its scalar
kernel `f` on single representations and the flag recording whether its
`relation_shape` is empty (as for the unstructured model, whose kernel ignores
the relation). -/
structure Interaction (σh σr σt α : Type) where
  relationShapeEmpty : Bool
  f : σh → σr → σt → α

/-- Modelled from the broadcast-rule table of the spec: `forward` returns a score
tensor of shape `(max(b_h, b_r, b_t), n_h, n_r, n_t)`, with the relation
dimension collapsed to `1` when the relation shape is empty; the entry at
`(b, i, j, k)` applies the kernel to the broadcast-indexed representations
(indexing modulo the input batch size realises broadcasting for batch sizes
`1` and the maximum). -/
def Interaction.forward {σh σr σt α : Type} (I : Interaction σh σr σt α)
    (h : Rep σh) (r : Rep σr) (t : Rep σt) : Score4 α :=
  { s1 := max h.b (max r.b t.b)
    s2 := h.n
    s3 := if I.relationShapeEmpty then 1 else r.n
    s4 := t.n
    data := fun b i j k =>
      I.f (h.data (b % h.b) i) (r.data (b % r.b) j) (t.data (b % t.b) k) }

/-- Modelled from the spec: `tensor.view(R, C)` on a contiguous 4-dimensional
tensor — row-major flattening of the target index, unflattened over the source
dimensions. -/
def Score4.view2 {α : Type} (s : Score4 α) (R C : Nat) : Score2 α :=
  { rows := R
    cols := C
    data := fun i j =>
      let idx := i * C + j
      s.data (idx / (s.s2 * s.s3 * s.s4)) (idx / (s.s3 * s.s4) % s.s2)
        (idx / s.s4 % s.s3) (idx % s.s4) }

/-- Modelled from the spec: `unsqueeze(dim=1)` — a batch representation viewed
with candidate dimension `1`. -/
def BRep.unsq1 {σ : Type} (x : BRep σ) : Rep σ :=
  { b := x.b, n := 1, data := fun b _ => x.data b }

/-- Modelled from the spec: `unsqueeze(dim=0)` — a candidate representation
viewed with batch dimension `1`. -/
def BRep.unsq0 {σ : Type} (x : BRep σ) : Rep σ :=
  { b := 1, n := x.b, data := fun _ k => x.data k }

/-- Modelled from the spec: `score_hrt` — unsqueeze all three inputs, run
`forward`, reshape to `(-1, 1)`. -/
def Interaction.score_hrt {σh σr σt α : Type} (I : Interaction σh σr σt α)
    (h : BRep σh) (r : BRep σr) (t : BRep σt) : Score2 α :=
  let s := I.forward h.unsq1 r.unsq1 t.unsq1
  s.view2 (s.s1 * s.s2 * s.s3 * s.s4) 1

/-- Modelled from the spec: `score_h` — all candidate head entities against a
batch of relation/tail pairs, reshaped to two dimensions. -/
def Interaction.score_h {σh σr σt α : Type} (I : Interaction σh σr σt α)
    (allEntities : BRep σh) (r : BRep σr) (t : BRep σt) : Score2 α :=
  let s := I.forward allEntities.unsq0 r.unsq1 t.unsq1
  s.view2 s.s1 (s.s2 * s.s3 * s.s4)

/-- Modelled from the spec: `score_r` — all candidate relations against a
batch of head/tail pairs, reshaped to two dimensions. -/
def Interaction.score_r {σh σr σt α : Type} (I : Interaction σh σr σt α)
    (h : BRep σh) (allRelations : BRep σr) (t : BRep σt) : Score2 α :=
  let s := I.forward h.unsq1 allRelations.unsq0 t.unsq1
  s.view2 s.s1 (s.s2 * s.s3 * s.s4)

/-- Modelled from the spec: `score_t` — all candidate tail entities against a
batch of head/relation pairs, reshaped to two dimensions. -/
def Interaction.score_t {σh σr σt α : Type} (I : Interaction σh σr σt α)
    (h : BRep σh) (r : BRep σr) (allEntities : BRep σt) : Score2 α :=
  let s := I.forward h.unsq1 r.unsq1 allEntities.unsq0
  s.view2 s.s1 (s.s2 * s.s3 * s.s4)

/-- Number of slices when splitting `total` candidates into chunks of
`sliceSize`. -/
def numChunks (total sliceSize : Nat) : Nat :=
  (total + sliceSize - 1) / sliceSize

/-- The `m`-th chunk of a candidate representation under slicing with
`sliceSize`. -/
def BRep.chunk {σ : Type} (x : BRep σ) (sliceSize m : Nat) : BRep σ :=
  { b := min sliceSize (x.b - m * sliceSize)
    data := fun k => x.data (m * sliceSize + k) }

/-- Modelled from the spec: `torch.cat(scores, dim=-1)` — concatenation of
score matrices along the column dimension. -/
def cat2 {α : Type} [Inhabited α] : List (Score2 α) → Score2 α
  | [] => { rows := 0, cols := 0, data := fun _ _ => default }
  | s :: rest =>
    let c := cat2 rest
    { rows := s.rows
      cols := s.cols + c.cols
      data := fun i j => if j < s.cols then s.data i j else c.data i (j - s.cols) }

/-- Modelled from the spec: `score_h` with memory-saving slicing — the
candidate head entities are processed in chunks of `sliceSize` and the chunk
scores concatenated. -/
def Interaction.score_h_sliced {σh σr σt α : Type} [Inhabited α]
    (I : Interaction σh σr σt α) (allEntities : BRep σh) (r : BRep σr)
    (t : BRep σt) (sliceSize : Nat) : Score2 α :=
  cat2 ((List.range (numChunks allEntities.b sliceSize)).map
    (fun m => I.score_h (allEntities.chunk sliceSize m) r t))

/-- Modelled from the spec: `score_r` with memory-saving slicing over the
candidate relations. -/
def Interaction.score_r_sliced {σh σr σt α : Type} [Inhabited α]
    (I : Interaction σh σr σt α) (h : BRep σh) (allRelations : BRep σr)
    (t : BRep σt) (sliceSize : Nat) : Score2 α :=
  cat2 ((List.range (numChunks allRelations.b sliceSize)).map
    (fun m => I.score_r h (allRelations.chunk sliceSize m) t))

/-- Modelled from the spec: `score_t` with memory-saving slicing over the
candidate tail entities. -/
def Interaction.score_t_sliced {σh σr σt α : Type} [Inhabited α]
    (I : Interaction σh σr σt α) (h : BRep σh) (r : BRep σr)
    (allEntities : BRep σt) (sliceSize : Nat) : Score2 α :=
  cat2 ((List.range (numChunks allEntities.b sliceSize)).map
    (fun m => I.score_t h r (allEntities.chunk sliceSize m)))

/-! ## Translational interaction functions

Modelled from the spec: the concrete interaction modules
(`pykeen.nn.modules.TransEInteraction`, `TransDInteraction`, `TransHInteraction`,
`TransRInteraction`, `StructuredEmbeddingInteraction`,
`UnstructuredModelInteraction`) are not part of the provided sources; their
kernels are reconstructed from the test suite (`_exp_score` for TransE, the
manual score values for TransD/TransR) as the negated norm of a model-specific
translation expression.  The norm primitive of the tensor framework (`torch.norm`) is an
external collaborator per the spec and is abstracted as a parameter `nrm`;
the claims proved below hold for every nonnegative choice of it. -/

/-- A `d`-dimensional embedding vector with exact-rational entries. -/
def Vec (d : Nat) : Type := Fin d → ℚ

/-- Inner product of two embedding vectors. -/
def dot {d : Nat} (u v : Vec d) : ℚ := ∑ i, u i * v i

/-- Matrix-vector product (a relation-specific projection). -/
def mulVec {m n : Nat} (M : Fin m → Fin n → ℚ) (v : Vec n) : Vec m :=
  fun i => ∑ j, M i j * v j

/-- Elementwise clamp to the interval `[-1, 1]` (`torch.clamp(x, -1, 1)`). -/
def clamp1 (x : ℚ) : ℚ := max (-1) (min 1 x)

/-- Norm-based clamping to the unit ball (`clamp_norm(x, maxnorm=1)`), with
the norm abstracted as `cnrm`. -/
def clampNorm {d : Nat} (cnrm : Vec d → ℚ) (v : Vec d) : Vec d :=
  if cnrm v ≤ 1 then v else fun i => v i / cnrm v

/-- Zero-padding/truncating resize of a vector between embedding dimensions,
as used by TransD to transfer an entity embedding into relation space. -/
def resize {dIn dOut : Nat} (v : Vec dIn) : Vec dOut :=
  fun i => if h : (i : Nat) < dIn then v ⟨i, h⟩ else 0

/-- Modelled from the spec: `TransEInteraction`, score `-‖h + r - t‖`
(matching `_exp_score` in the test suite). -/
def transEInteraction (d : Nat) (nrm : Vec d → ℚ) :
    Interaction (Vec d) (Vec d) (Vec d) ℚ :=
  { relationShapeEmpty := false
    f := fun h r t => - nrm (fun i => h i + r i - t i) }

/-- Modelled from the spec: `TransHInteraction` — head and tail are projected
onto the relation-specific hyperplane with normal `w` before translation by
`dr`; score `-‖(h - ⟪w,h⟫w) + dr - (t - ⟪w,t⟫w)‖`. -/
def transHInteraction (d : Nat) (nrm : Vec d → ℚ) :
    Interaction (Vec d) (Vec d × Vec d) (Vec d) ℚ :=
  { relationShapeEmpty := false
    f := fun h wd t => - nrm (fun i =>
      (h i - dot wd.1 h * wd.1 i) + wd.2 i - (t i - dot wd.1 t * wd.1 i)) }

/-- Modelled from the spec: `TransRInteraction` — entities are projected into
relation space by the relation matrix and clamped to the unit range (matching
the manual test value `-32`); score `-‖clamp(Mh) + r - clamp(Mt)‖`. -/
def transRInteraction (de dr : Nat) (nrm : Vec dr → ℚ) :
    Interaction (Vec de) (Vec dr × (Fin dr → Fin de → ℚ)) (Vec de) ℚ :=
  { relationShapeEmpty := false
    f := fun h rM t => - nrm (fun i =>
      clamp1 (mulVec rM.2 h i) + rM.1 i - clamp1 (mulVec rM.2 t i)) }

/-- Modelled from the spec: `TransDInteraction` — entities carry a projection
vector; the projected entity `⟪e_p,e⟫·r_p + resize(e)` is norm-clamped before
translation (matching the manual test values `-16`/`-27`). -/
def transDInteraction (de dr : Nat) (cnrm nrm : Vec dr → ℚ) :
    Interaction (Vec de × Vec de) (Vec dr × Vec dr) (Vec de × Vec de) ℚ :=
  { relationShapeEmpty := false
    f := fun hh rr tt => - nrm (fun i =>
      clampNorm cnrm (fun j => dot hh.2 hh.1 * rr.2 j + resize hh.1 j) i
        + rr.1 i
        - clampNorm cnrm (fun j => dot tt.2 tt.1 * rr.2 j + resize tt.1 j) i) }

/-- Modelled from the spec: `StructuredEmbeddingInteraction` — head and tail
are projected by two relation-specific matrices; score `-‖R_h h - R_t t‖`. -/
def structuredEmbeddingInteraction (d : Nat) (nrm : Vec d → ℚ) :
    Interaction (Vec d) ((Fin d → Fin d → ℚ) × (Fin d → Fin d → ℚ)) (Vec d) ℚ :=
  { relationShapeEmpty := false
    f := fun h RR t => - nrm (fun i => mulVec RR.1 h i - mulVec RR.2 t i) }

/-- Modelled from the spec: `UnstructuredModelInteraction` — no relation
information (`relation_shape` is empty); score `-‖h - t‖`. -/
def unstructuredModelInteraction (d : Nat) (nrm : Vec d → ℚ) :
    Interaction (Vec d) Unit (Vec d) ℚ :=
  { relationShapeEmpty := true
    f := fun h _ t => - nrm (fun i => h i - t i) }

/-- All five scoring modes of an interaction produce only nonpositive
entries. -/
def allModesNonpos {σh σr σt : Type} (I : Interaction σh σr σt ℚ) : Prop :=
  (∀ (h : Rep σh) (r : Rep σr) (t : Rep σt) (b i j k : Nat),
    (I.forward h r t).data b i j k ≤ 0) ∧
  (∀ (h : BRep σh) (r : BRep σr) (t : BRep σt) (i j : Nat),
    (I.score_hrt h r t).data i j ≤ 0) ∧
  (∀ (hs : BRep σh) (r : BRep σr) (t : BRep σt) (i j : Nat),
    (I.score_h hs r t).data i j ≤ 0) ∧
  (∀ (h : BRep σh) (rs : BRep σr) (t : BRep σt) (i j : Nat),
    (I.score_r h rs t).data i j ≤ 0) ∧
  (∀ (h : BRep σh) (r : BRep σr) (ts : BRep σt) (i j : Nat),
    (I.score_t h r ts).data i j ≤ 0)

/-! ## Prediction utilities (`src/pykeen/utilities/prediction_utils.py`) -/

/-- The function `create_triples`: pair every entity pair with one fixed relation. -/
def create_triples {E R : Type} (entityPairs : List (E × E)) (rel : R) :
    List (E × R × E) :=
  entityPairs.map (fun p => (p.1, rel, p.2))

/-- The pairing `itertools.product(entities, entities)` in row-major order. -/
def allEntityPairs {E : Type} (entities : List E) : List (E × E) :=
  entities.flatMap (fun s => entities.map (fun o => (s, o)))

/-- One row of the ranked-triples array returned by `make_predictions`:
subject, predicate, object, and the predicted score as the final column. -/
structure PredRow (E R : Type) where
  sub : E
  rel : R
  obj : E
  score : ℚ
  deriving DecidableEq

/-- Ordering of prediction rows by their score column. -/
def scoreLE {E R : Type} (a b : PredRow E R) : Prop := a.score ≤ b.score

instance {E R : Type} : DecidableRel (@scoreLE E R) :=
  fun a b => inferInstanceAs (Decidable (a.score ≤ b.score))

instance {E R : Type} : IsTotal (PredRow E R) scoreLE :=
  ⟨fun a b => le_total a.score b.score⟩

instance {E R : Type} : IsTrans (PredRow E R) scoreLE :=
  ⟨fun _ _ _ hab hbc => le_trans hab hbc⟩

/-- The function `make_predictions`: build all candidate triples (every entity pair with
every relation), map them through the id dictionaries
(`create_mapped_triples`), map the ids back to labels through the inverted
dictionaries, score the mapped triples with the model (`kge_model.predict`),
sort ascending by predicted score (`torch.sort`, `descending=False`) carrying
the score as the final column, and keep only the rows whose subject differs
from its object. -/
def make_predictions {E R : Type} [DecidableEq E]
    (predict : Nat × Nat × Nat → ℚ)
    (entities : List E) (relations : List R)
    (entityToId : E → Nat) (relToId : R → Nat)
    (idToEntity : Nat → E) (idToRel : Nat → R) : List (PredRow E R) :=
  let allTriples :=
    relations.flatMap (fun rel => create_triples (allEntityPairs entities) rel)
  let mapped := allTriples.map
    (fun x => (entityToId x.1, relToId x.2.1, entityToId x.2.2))
  let named := mapped.map
    (fun m => (idToEntity m.1, idToRel m.2.1, idToEntity m.2.2))
  let scores := mapped.map predict
  let rows := (named.zip scores).map
    (fun p => PredRow.mk p.1.1 p.1.2.1 p.1.2.2 p.2)
  (rows.insertionSort scoreLE).filter (fun p => decide (p.sub ≠ p.obj))

/-! ## Deterioration experiment driver
(`src/pykeen/experiments/deteriorating_unleaking.py`)

`_help_loop` is embedded with the file system (the pickle cache directory)
as an association list from cache keys to the pickled
`(dataset, deteriorate_time, cleanup_time)` triples.  The external
collaborators `deteriorate_dataset`, `cleanup_dataset` and
`dataset_splits_distance` (imported from `pykeen.triples.remix`, not part of
the provided sources) are deterministic functions of their arguments — the
random state is freshly seeded with the replicate number — and are abstracted
as parameters; the wall-clock measurements `time.time() - s` are oracles passed
per call. -/

/-- The per-dataset environment of `_help_loop`: the per-dataset `NO_RANDOM`
threshold (if the dataset class has one), the abstracted deterioration and
cleanup routines (as functions of the ratio/seed/flag), the splits distance,
and the dataset name. -/
structure DetEnv (D : Type) where
  noRandomThreshold : Option ℚ
  deteriorate : ℚ → Nat → D
  cleanupFn : D → Nat → Bool → D
  distance : D → ℚ
  datasetName : String

/-- The pickle cache directory: file name (derived from ratio, replicate and
cleanup mode) to pickled contents. -/
def DetCache (D : Type) : Type := List ((Nat × Nat × Bool) × (D × ℚ × ℚ))

/-- The cache file name `{int(ratio * 1000):03}_{replicate:03}_{rct}.pkl`,
keyed by its three varying components. -/
def cacheKey ( ratio : ℚ) (replicate : Nat) (randomizeCleanup : Bool) :
    Nat × Nat × Bool :=
  (( ratio * 1000).floor.toNat, replicate, randomizeCleanup)

/-- The composite of `os.path.exists` and `pickle.load`: look the file up in the cache. -/
def cacheGet {D : Type} (fs : DetCache D) (k : Nat × Nat × Bool) :
    Option (D × ℚ × ℚ) :=
  match fs with
  | [] => none
  | (k', v) :: rest => if k' = k then some v else cacheGet rest k

/-- The cleanup-mode label: the string random when cleanup is randomized,
deterministic otherwise. -/
def rctName (randomizeCleanup : Bool) : String :=
  if randomizeCleanup then "random" else "deterministic"

/-- One row of the results data frame built by `_help_loop`. -/
structure DetRow where
  dataset : String
  cleanupMode : String
  percentage : ℚ
  trial : Nat
  distance : ℚ
  deteriorateTime : ℚ
  cleanupTime : ℚ
  deriving DecidableEq

/-- The skip condition at the top of `_help_loop`: the dataset has a
`NO_RANDOM` threshold, cleanup is randomized, and the threshold is below the
ratio. -/
def skipCell {D : Type} (env : DetEnv D) ( ratio : ℚ)
    (randomizeCleanup : Bool) : Bool :=
  match env.noRandomThreshold with
  | some thr => randomizeCleanup && decide (thr < ratio)
  | none => false

/-- The result row built at the end of `_help_loop` from the
deteriorated-and-cleaned dataset `nd` and the two timings. -/
def mkDetRow {D : Type} (env : DetEnv D) ( ratio : ℚ) (replicate : Nat)
    (randomizeCleanup : Bool) (nd : D) (dt ct : ℚ) : DetRow :=
  { dataset := env.datasetName
    cleanupMode := rctName randomizeCleanup
    percentage := ratio
    trial := replicate
    distance := env.distance nd
    deteriorateTime := dt
    cleanupTime := ct }

/-- The outcome of one `_help_loop` call: the returned row (`none` on the
skip path), the file system afterwards, and whether deterioration/cleanup
were actually recomputed. -/
structure DetOut (D : Type) where
  row : Option DetRow
  cache : DetCache D
  recomputed : Bool

/-- The function `_help_loop`: skip `NO_RANDOM`-excluded cells; otherwise load the pickle
if its file exists, else deteriorate, clean up, time both steps, and write the
pickle; finally build the row from the (loaded or computed) dataset and
timings.  `detTime`/`cleanTime` are the wall-clock measurements this call
would record if it recomputes. -/
def helpLoop {D : Type} (env : DetEnv D) (detTime cleanTime : ℚ)
    (fs : DetCache D) ( ratio : ℚ) (replicate : Nat)
    (randomizeCleanup : Bool) : DetOut D :=
  if skipCell env ratio randomizeCleanup then
    { row := none, cache := fs, recomputed := false }
  else
    let key := cacheKey ratio replicate randomizeCleanup
    match cacheGet fs key with
    | some (nd, dt, ct) =>
      { row := some (mkDetRow env ratio replicate randomizeCleanup nd dt ct)
        cache := fs
        recomputed := false }
    | none =>
      let nd := env.cleanupFn (env.deteriorate ratio replicate) replicate
        randomizeCleanup
      { row := some (mkDetRow env ratio replicate randomizeCleanup nd detTime
          cleanTime)
        cache := (key, (nd, detTime, cleanTime)) :: fs
        recomputed := true }

/-! ## Auxiliary definitions for the theorems below -/

/-- The combined early-stopping condition checked at the end of epoch `e`:
`0 == (epoch % early_stopper.frequency) and early_stopper.should_stop()`. -/
def stopCond (es : EarlyStopper) (e : Nat) : Bool :=
  (e % es.frequency == 0) && es.shouldStop e

/-- A concrete training configuration used to instantiate the theorems:
two epochs, one instance per batch, no early stopper. -/
def exTrainCfg : TrainConfig Unit Unit :=
  { numEpochs := 2
    batchSize := 1
    labelSmoothing := 0
    continueTraining := false
    computeMrLoss := false
    earlyStopper := none
    lossOf := fun _ _ => 1
    newOptimizer := ()
    instances := ()
    numInstances := 1 }

/-- A concrete early stopper that stops at its first consultation. -/
def exStopper : EarlyStopper := { frequency := 1, shouldStop := fun _ => true }

/-- The configuration `exTrainCfg` with the early stopper `exStopper` attached. -/
def exTrainCfgStop : TrainConfig Unit Unit :=
  { exTrainCfg with numEpochs := 3, earlyStopper := some exStopper }

/-- The configuration `exTrainCfg` with `continue_training=True` (without a previous `train`
call this raises). -/
def exTrainCfgErr : TrainConfig Unit Unit :=
  { exTrainCfg with continueTraining := true }

/-- The attribute state of a freshly constructed `TrainingLoop`. -/
def exTrainSt : TrainState Unit Unit :=
  { optimizer := none, trainingInstances := none, lossesPerEpochs := [] }

/-- The losses-per-epoch list `train exTrainCfg exTrainSt` produces. -/
def exLosses : List ℚ :=
  [epochLossSum exTrainCfg 0 / (exTrainCfg.numInstances : ℚ),
   epochLossSum exTrainCfg 1 / (exTrainCfg.numInstances : ℚ)]

/-- The full result of `train exTrainCfg exTrainSt`. -/
def exTrainRes : TrainResult Unit Unit :=
  { finalState :=
      { optimizer := some ()
        trainingInstances := some ()
        lossesPerEpochs := exLosses }
    loop :=
      { losses := exLosses
        events := epochEvents exTrainCfg 0 ++ epochEvents exTrainCfg 1
        consulted := []
        epochsRun := 2
        stopped := false } }

/-- The full result of `train exTrainCfgStop exTrainSt`: the stopper fires at
the end of epoch 0. -/
def exTrainResStop : TrainResult Unit Unit :=
  { finalState :=
      { optimizer := some ()
        trainingInstances := some ()
        lossesPerEpochs := [epochLossSum exTrainCfgStop 0 / (exTrainCfgStop.numInstances : ℚ)] }
    loop :=
      { losses := [epochLossSum exTrainCfgStop 0 / (exTrainCfgStop.numInstances : ℚ)]
        events := epochEvents exTrainCfgStop 0
        consulted := [0]
        epochsRun := 1
        stopped := true } }

/-- A concrete interaction kernel over rational payloads. -/
def exInteraction : Interaction ℚ ℚ ℚ ℚ :=
  { relationShapeEmpty := false, f := fun a b c => a + b + c }

/-- A concrete relation-less interaction kernel (as for the unstructured
model). -/
def exInteractionUM : Interaction ℚ Unit ℚ ℚ :=
  { relationShapeEmpty := true, f := fun a _ c => a - c }

/-- A concrete batch representation of the given size. -/
def exBRep (n : Nat) : BRep ℚ :=
  { b := n, data := fun i => (i : ℚ) }

/-- A concrete relation-less batch representation. -/
def exBRepUnit (n : Nat) : BRep Unit :=
  { b := n, data := fun _ => () }

/-- A concrete nonnegative norm on 1-dimensional vectors. -/
def exNorm : Vec 1 → ℚ := fun v => |v 0|

/-- Equality of two score matrices: same shape and same entries at every
in-bounds index. -/
def score2EquivOn {α : Type} (x y : Score2 α) : Prop :=
  x.rows = y.rows ∧ x.cols = y.cols ∧
  ∀ i j, i < x.rows → j < x.cols → x.data i j = y.data i j

/-- A concrete experiment environment with no `NO_RANDOM` threshold. -/
def exDetEnv : DetEnv Unit :=
  { noRandomThreshold := none
    deteriorate := fun _ _ => ()
    cleanupFn := fun _ _ _ => ()
    distance := fun _ => 0
    datasetName := "nations" }

/-- A concrete experiment environment with the `NO_RANDOM` threshold `0.6`
of `WN18RR`. -/
def exDetEnvWn : DetEnv Unit :=
  { exDetEnv with noRandomThreshold := some (6/10), datasetName := "wn18rr" }

/-! ## Lemmas: the epoch loop of `TrainingLoop.train` -/

theorem runEpochs_no_stopper {O I : Type} (cfg : TrainConfig O I)
    (hes : cfg.earlyStopper = none) :
    ∀ (k e : Nat) (s : LoopState),
      runEpochs cfg e k s =
        { losses := s.losses ++ (List.range' e k).map
            (fun e' => epochLossSum cfg e' / (cfg.numInstances : ℚ))
          events := s.events ++ (List.range' e k).flatMap (epochEvents cfg)
          consulted := s.consulted
          epochsRun := s.epochsRun + k
          stopped := s.stopped } := by
  intro k
  induction k with
  | zero => intro e s; simp [runEpochs]
  | succ k ih =>
    intro e s
    rw [show runEpochs cfg e (k + 1) s =
        runEpochs cfg (e + 1) k (runOneEpoch cfg e s) by
      simp [runEpochs, hes]]
    rw [ih (e + 1) (runOneEpoch cfg e s)]
    simp [runOneEpoch, List.range'_succ]
    omega

theorem runEpochs_succ_some {O I : Type} (cfg : TrainConfig O I)
    (es : EarlyStopper) (hes : cfg.earlyStopper = some es)
    (k e : Nat) (s : LoopState) :
    runEpochs cfg e (k + 1) s =
      (if e % es.frequency == 0 then
        if es.shouldStop e then
          { runOneEpoch cfg e s with
            consulted := (runOneEpoch cfg e s).consulted ++ [e],
            stopped := true }
        else runEpochs cfg (e + 1) k
          { runOneEpoch cfg e s with
            consulted := (runOneEpoch cfg e s).consulted ++ [e] }
      else runEpochs cfg (e + 1) k (runOneEpoch cfg e s)) := by
  have h : runEpochs cfg e (k + 1) s =
      (match cfg.earlyStopper with
       | none => runEpochs cfg (e + 1) k (runOneEpoch cfg e s)
       | some es' =>
         if e % es'.frequency == 0 then
           if es'.shouldStop e then
             { runOneEpoch cfg e s with
               consulted := (runOneEpoch cfg e s).consulted ++ [e],
               stopped := true }
           else runEpochs cfg (e + 1) k
             { runOneEpoch cfg e s with
               consulted := (runOneEpoch cfg e s).consulted ++ [e] }
         else runEpochs cfg (e + 1) k (runOneEpoch cfg e s)) := rfl
  rw [h, hes]

theorem runEpochs_stopper_no_stop {O I : Type} (cfg : TrainConfig O I)
    (es : EarlyStopper) (hes : cfg.earlyStopper = some es) :
    ∀ (k e : Nat) (s : LoopState),
      (List.range' e k).find? (stopCond es) = none →
      runEpochs cfg e k s =
        { losses := s.losses ++ (List.range' e k).map
            (fun e' => epochLossSum cfg e' / (cfg.numInstances : ℚ))
          events := s.events ++ (List.range' e k).flatMap (epochEvents cfg)
          consulted := s.consulted ++ (List.range' e k).filter
            (fun e' => e' % es.frequency == 0)
          epochsRun := s.epochsRun + k
          stopped := s.stopped } := by
  intro k
  induction k with
  | zero => intro e s _; simp [runEpochs]
  | succ k ih =>
    intro e s hfind
    rw [List.range'_succ] at hfind ⊢
    by_cases hc : stopCond es e
    · rw [List.find?_cons_of_pos _ hc] at hfind; cases hfind
    · rw [List.find?_cons_of_neg _ hc] at hfind
      rw [runEpochs_succ_some cfg es hes]
      unfold stopCond at hc
      rw [Bool.not_eq_true] at hc
      by_cases hmod : (e % es.frequency == 0)
      · have hstop : es.shouldStop e = false := by
          rcases Bool.and_eq_false_iff.mp hc with h | h
          · rw [hmod] at h; cases h
          · exact h
        rw [if_pos hmod, hstop, if_neg (by simp)]
        rw [ih (e + 1) _ hfind]
        simp [runOneEpoch, List.filter_cons, hmod]
        omega
      · rw [if_neg hmod]
        rw [ih (e + 1) _ hfind]
        rw [Bool.not_eq_true] at hmod
        simp [runOneEpoch, List.filter_cons, hmod]
        omega

theorem runEpochs_stopper_stop {O I : Type} (cfg : TrainConfig O I)
    (es : EarlyStopper) (hes : cfg.earlyStopper = some es) :
    ∀ (k e : Nat) (s : LoopState) (e' : Nat),
      (List.range' e k).find? (stopCond es) = some e' →
      runEpochs cfg e k s =
        { losses := s.losses ++ (List.range' e (e' + 1 - e)).map
            (fun x => epochLossSum cfg x / (cfg.numInstances : ℚ))
          events := s.events ++ (List.range' e (e' + 1 - e)).flatMap (epochEvents cfg)
          consulted := s.consulted ++ (List.range' e (e' + 1 - e)).filter
            (fun x => x % es.frequency == 0)
          epochsRun := s.epochsRun + (e' + 1 - e)
          stopped := true } := by
  intro k
  induction k with
  | zero => intro e s e' hfind; simp at hfind
  | succ k ih =>
    intro e s e' hfind
    rw [List.range'_succ] at hfind
    rw [runEpochs_succ_some cfg es hes]
    by_cases hc : stopCond es e
    · rw [List.find?_cons_of_pos _ hc] at hfind
      have he : e' = e := by cases hfind; rfl
      subst he
      have h1 : e' + 1 - e' = 1 := by omega
      rw [h1]
      have hc2 : (e' % es.frequency == 0 && es.shouldStop e') = true := hc
      obtain ⟨hmod, hstop⟩ := Bool.and_eq_true_iff.mp hc2
      rw [if_pos hmod, hstop, if_pos (by simp)]
      simp [runOneEpoch, List.range'_succ, List.filter_cons, hmod]
    · rw [List.find?_cons_of_neg _ hc] at hfind
      have hmem : e' ∈ List.range' (e + 1) k := List.mem_of_find?_eq_some hfind
      have hge : e + 1 ≤ e' := by
        have := List.mem_range'_1.mp hmem
        omega
      have harith : e' + 1 - e = (e' + 1 - (e + 1)) + 1 := by omega
      unfold stopCond at hc
      rw [Bool.not_eq_true] at hc
      by_cases hmod : (e % es.frequency == 0)
      · have hstop : es.shouldStop e = false := by
          rcases Bool.and_eq_false_iff.mp hc with h | h
          · rw [hmod] at h; cases h
          · exact h
        rw [if_pos hmod, hstop, if_neg (by simp)]
        rw [ih (e + 1) _ e' hfind]
        rw [harith, List.range'_succ]
        simp [runOneEpoch, List.filter_cons, hmod]
        omega
      · rw [if_neg hmod]
        rw [ih (e + 1) _ e' hfind]
        rw [harith, List.range'_succ]
        rw [Bool.not_eq_true] at hmod
        simp [runOneEpoch, List.filter_cons, hmod]
        omega

theorem train_ok_loop {O I : Type} (cfg : TrainConfig O I) (st : TrainState O I)
    (res : TrainResult O I) (hok : train cfg st = .ok res) :
    res.loop = runEpochs cfg 0 cfg.numEpochs
      { losses := st.lossesPerEpochs, events := [], consulted := [],
        epochsRun := 0, stopped := false }
    ∧ res.finalState.lossesPerEpochs = res.loop.losses := by
  unfold train at hok
  split at hok
  · cases hok
  · split at hok
    · cases hok
      exact ⟨rfl, rfl⟩
    · split at hok
      · cases hok
      · cases hok
        exact ⟨rfl, rfl⟩

theorem batchEvents_length (e b : Nat) : (batchEvents e b).length = 5 := rfl

theorem step_after_backward_flatMap (pairs : List (Nat × Nat)) :
    ∀ (n e b : Nat),
      (pairs.flatMap (fun p => batchEvents p.1 p.2))[n]? = some (Event.step e b) →
      Event.backward e b ∈ (pairs.flatMap (fun p => batchEvents p.1 p.2)).take n := by
  induction pairs with
  | nil => intro n e b h; simp at h
  | cons p ps ih =>
    intro n e b h
    rw [List.flatMap_cons] at h ⊢
    by_cases hn : n < 5
    · have hlen : n < (batchEvents p.1 p.2).length := by rw [batchEvents_length]; omega
      rw [List.getElem?_append, if_pos hlen] at h
      have htake : List.take n
            (batchEvents p.1 p.2 ++ ps.flatMap (fun q => batchEvents q.1 q.2))
          = List.take n (batchEvents p.1 p.2) :=
        List.take_append_of_le_length (by rw [batchEvents_length]; omega)
      rw [htake]
      interval_cases n <;> simp_all [batchEvents]
    · have hlen : (batchEvents p.1 p.2).length ≤ n := by rw [batchEvents_length]; omega
      rw [List.getElem?_append_right hlen] at h
      rw [batchEvents_length] at h
      have hmem := ih (n - 5) e b h
      have h5 : (batchEvents p.1 p.2).length + (n - 5) = n := by
        rw [batchEvents_length]; omega
      have htake := @List.take_append Event (batchEvents p.1 p.2)
        (ps.flatMap (fun q => batchEvents q.1 q.2)) (n - 5)
      rw [h5] at htake
      rw [htake]
      exact List.mem_append_right _ hmem

/-! ## Claims C4, C5, C6, C8: `TrainingLoop.train` -/

/-- Claim C4. In `TrainingLoop.train`, for every batch of every epoch the steps
occur in this order: the batch loss is computed, the gradients of the optimizer are
zeroed, backpropagation is run on the loss, the optimizer step is applied, and
the `forward_constraint_applied` flag of the model is set to `False` (the event
trace is exactly the concatenation, over the executed epochs and their
batches, of the five-event blocks `batchEvents`, which list those actions in
that order); and no optimizer step is ever applied before the gradients for
that batch have been computed (every `step` event is preceded by the matching
`backward` event). -/
theorem c4_batch_order {O I : Type} (cfg : TrainConfig O I) (st : TrainState O I)
    (res : TrainResult O I) (hok : train cfg st = .ok res) :
    res.loop.events = (List.range res.loop.epochsRun).flatMap (epochEvents cfg)
    ∧ ∀ (n e b : Nat), res.loop.events[n]? = some (Event.step e b) →
        Event.backward e b ∈ res.loop.events.take n := by
  have hev : res.loop.events
      = (List.range res.loop.epochsRun).flatMap (epochEvents cfg) := by
    obtain ⟨hloop, -⟩ := train_ok_loop cfg st res hok
    rcases hesc : cfg.earlyStopper with _ | es
    · rw [hloop, runEpochs_no_stopper cfg hesc cfg.numEpochs 0 _]
      simp [List.range_eq_range']
    · rcases hfind : (List.range' 0 cfg.numEpochs).find? (stopCond es) with _ | e'
      · rw [hloop, runEpochs_stopper_no_stop cfg es hesc cfg.numEpochs 0 _ hfind]
        simp [List.range_eq_range']
      · rw [hloop, runEpochs_stopper_stop cfg es hesc cfg.numEpochs 0 _ e' hfind]
        simp [List.range_eq_range']
  refine ⟨hev, ?_⟩
  intro n e b h
  rw [hev] at h ⊢
  have hconv : (List.range res.loop.epochsRun).flatMap (epochEvents cfg)
      = ((List.range res.loop.epochsRun).flatMap
          (fun ep => (List.range (numBatches cfg)).map (fun bt => (ep, bt)))).flatMap
          (fun p => batchEvents p.1 p.2) := by
    rw [List.flatMap_assoc]
    simp only [List.flatMap_map]
    rfl
  rw [hconv] at h ⊢
  exact step_after_backward_flatMap _ n e b h

/-- Witness for claim C4. The order property instantiated at a concrete two-epoch
training run. -/
theorem c4_batch_order_witness :
    exTrainRes.loop.events
      = (List.range exTrainRes.loop.epochsRun).flatMap (epochEvents exTrainCfg)
    ∧ ∀ (n e b : Nat), exTrainRes.loop.events[n]? = some (Event.step e b) →
        Event.backward e b ∈ exTrainRes.loop.events.take n :=
  c4_batch_order exTrainCfg exTrainSt exTrainRes rfl

/-- Claim C5. If `TrainingLoop.train` is given an early stopper with frequency
`f`, then `should_stop()` is consulted exactly at the end of the executed
epochs `e` (counted from 0) with `e % f == 0` (second conjunct), and when it
returns true — i.e. at the first epoch satisfying `stopCond` — `train`
immediately returns the losses accumulated so far: exactly the epochs
`0..e'` have run, the early `return` was taken, and the returned list is the
previous list extended by exactly the losses of those epochs. -/
theorem c5_early_stopping {O I : Type} (cfg : TrainConfig O I)
    (st : TrainState O I) (res : TrainResult O I) (es : EarlyStopper)
    (hok : train cfg st = .ok res) (hes : cfg.earlyStopper = some es)
    (_hf : 0 < es.frequency) :
    res.finalState.lossesPerEpochs = res.loop.losses
    ∧ res.loop.consulted
        = (List.range res.loop.epochsRun).filter (fun e => e % es.frequency == 0)
    ∧ (match (List.range cfg.numEpochs).find? (stopCond es) with
       | some e' =>
           res.loop.epochsRun = e' + 1 ∧ res.loop.stopped = true ∧
           res.loop.losses = st.lossesPerEpochs ++ (List.range (e' + 1)).map
             (fun e => epochLossSum cfg e / (cfg.numInstances : ℚ))
       | none => res.loop.epochsRun = cfg.numEpochs ∧ res.loop.stopped = false) := by
  obtain ⟨hloop, hret⟩ := train_ok_loop cfg st res hok
  rcases hfind : (List.range cfg.numEpochs).find? (stopCond es) with _ | e' <;>
    rw [List.range_eq_range'] at hfind
  · rw [runEpochs_stopper_no_stop cfg es hes cfg.numEpochs 0 _ hfind] at hloop
    refine ⟨hret, ?_, ?_, ?_⟩
    · rw [hloop]; simp [List.range_eq_range']
    · rw [hloop]; simp
    · rw [hloop]
  · rw [runEpochs_stopper_stop cfg es hes cfg.numEpochs 0 _ e' hfind] at hloop
    refine ⟨hret, ?_, ?_, ?_, ?_⟩
    · rw [hloop]; simp [List.range_eq_range']
    · rw [hloop]; simp
    · rw [hloop]
    · rw [hloop]; simp [List.range_eq_range']

/-- Witness for claim C5. The early-stopping property instantiated at a concrete
run whose stopper stops at its first consultation (end of epoch 0). -/
theorem c5_early_stopping_witness :
    exTrainResStop.finalState.lossesPerEpochs = exTrainResStop.loop.losses
    ∧ exTrainResStop.loop.consulted
        = (List.range exTrainResStop.loop.epochsRun).filter
            (fun e => e % exStopper.frequency == 0)
    ∧ (match (List.range exTrainCfgStop.numEpochs).find? (stopCond exStopper) with
       | some e' =>
           exTrainResStop.loop.epochsRun = e' + 1
           ∧ exTrainResStop.loop.stopped = true
           ∧ exTrainResStop.loop.losses = exTrainSt.lossesPerEpochs
               ++ (List.range (e' + 1)).map
                 (fun e => epochLossSum exTrainCfgStop e / (exTrainCfgStop.numInstances : ℚ))
       | none => exTrainResStop.loop.epochsRun = exTrainCfgStop.numEpochs
           ∧ exTrainResStop.loop.stopped = false) :=
  c5_early_stopping exTrainCfgStop exTrainSt exTrainResStop exStopper rfl rfl
    (by decide)

/-- Claim C6. Each completed epoch of `TrainingLoop.train` — on every
successful run, with or without an early stopper — appends exactly one value
to `losses_per_epochs`, equal to the sum of the batch losses of that epoch
divided by the number of training instances (the losses list ends with
exactly one such value per executed epoch, in epoch order), and `train`
returns `losses_per_epochs`; in particular a call with `num_epochs = n` and
no early stopper executes exactly `n` epochs and hence appends exactly `n`
values. -/
theorem c6_epoch_losses {O I : Type} (cfg : TrainConfig O I)
    (st : TrainState O I) (res : TrainResult O I)
    (hok : train cfg st = .ok res)
    (_hinst : 0 < cfg.numInstances) (_hbatch : 0 < cfg.batchSize) :
    res.loop.losses = st.lossesPerEpochs ++ (List.range res.loop.epochsRun).map
      (fun e => epochLossSum cfg e / (cfg.numInstances : ℚ))
    ∧ res.finalState.lossesPerEpochs = res.loop.losses
    ∧ res.loop.losses.length = st.lossesPerEpochs.length + res.loop.epochsRun
    ∧ (cfg.earlyStopper = none → res.loop.epochsRun = cfg.numEpochs) := by
  obtain ⟨hloop, hret⟩ := train_ok_loop cfg st res hok
  have main : res.loop.losses = st.lossesPerEpochs
        ++ (List.range res.loop.epochsRun).map
          (fun e => epochLossSum cfg e / (cfg.numInstances : ℚ))
      ∧ (cfg.earlyStopper = none → res.loop.epochsRun = cfg.numEpochs) := by
    rcases hesc : cfg.earlyStopper with _ | es
    · rw [hloop, runEpochs_no_stopper cfg hesc cfg.numEpochs 0 _]
      constructor
      · simp [List.range_eq_range']
      · intro _
        simp
    · rcases hfind : (List.range' 0 cfg.numEpochs).find? (stopCond es)
        with _ | e'
      · rw [hloop, runEpochs_stopper_no_stop cfg es hesc cfg.numEpochs 0 _ hfind]
        constructor
        · simp [List.range_eq_range']
        · intro _
          simp
      · rw [hloop, runEpochs_stopper_stop cfg es hesc cfg.numEpochs 0 _ e' hfind]
        constructor
        · simp [List.range_eq_range']
        · intro hnone
          cases hnone
  refine ⟨main.1, hret, ?_, main.2⟩
  rw [main.1]
  simp

/-- Witness for claim C6. The per-epoch loss accounting instantiated at a concrete
two-epoch run with one training instance. -/
theorem c6_epoch_losses_witness :
    exTrainRes.loop.losses = exTrainSt.lossesPerEpochs
      ++ (List.range exTrainRes.loop.epochsRun).map
        (fun e => epochLossSum exTrainCfg e / (exTrainCfg.numInstances : ℚ))
    ∧ exTrainRes.finalState.lossesPerEpochs = exTrainRes.loop.losses
    ∧ exTrainRes.loop.losses.length
        = exTrainSt.lossesPerEpochs.length + exTrainRes.loop.epochsRun
    ∧ (exTrainCfg.earlyStopper = none
        → exTrainRes.loop.epochsRun = exTrainCfg.numEpochs) :=
  c6_epoch_losses exTrainCfg exTrainSt exTrainRes rfl (by decide) (by decide)

/-- Claim C8. `TrainingLoop.train` raises `ValueError` — leaving
`losses_per_epochs` and `training_instances` (indeed the whole attribute
state) unchanged, before any epoch runs — exactly when either the model uses
margin-ranking loss and `label_smoothing > 0`, or `continue_training` is true
and no optimizer exists from a previous call. -/
theorem c8_error_conditions {O I : Type} (cfg : TrainConfig O I)
    (st : TrainState O I) :
    ((∃ err, train cfg st = .error err) ↔
      ((cfg.computeMrLoss ∧ cfg.labelSmoothing > 0)
        ∨ (cfg.continueTraining = true ∧ st.optimizer = none)))
    ∧ (∀ k s', train cfg st = .error (k, s') → s' = st) := by
  unfold train
  by_cases h1 : cfg.computeMrLoss ∧ cfg.labelSmoothing > 0
  · rw [if_pos h1]
    refine ⟨⟨fun _ => Or.inl h1, fun _ => ⟨_, rfl⟩⟩, ?_⟩
    intro k s' h
    cases h
    rfl
  · rw [if_neg h1]
    by_cases h2 : cfg.continueTraining
    · rw [if_neg (by simp [h2])]
      cases hopt : st.optimizer with
      | none =>
        rw [if_pos (by simp)]
        refine ⟨⟨fun _ => Or.inr ⟨h2, rfl⟩, fun _ => ⟨_, rfl⟩⟩, ?_⟩
        intro k s' h
        cases h
        rfl
      | some o =>
        rw [if_neg (by simp)]
        constructor
        · constructor
          · rintro ⟨err, h⟩; cases h
          · rintro (h | ⟨-, hnone⟩)
            · exact absurd h h1
            · cases hnone
        · intro k s' h; cases h
    · rw [if_pos (by simpa using h2)]
      constructor
      · constructor
        · rintro ⟨err, h⟩; cases h
        · rintro (h | ⟨hct, -⟩)
          · exact absurd h h1
          · exact absurd hct h2
      · intro k s' h; cases h

/-- Witness for claim C8. The error characterisation instantiated at a concrete
configuration with `continue_training=True` and no previous optimizer. -/
theorem c8_error_conditions_witness :
    ((∃ err, train exTrainCfgErr exTrainSt = .error err) ↔
      ((exTrainCfgErr.computeMrLoss ∧ exTrainCfgErr.labelSmoothing > 0)
        ∨ (exTrainCfgErr.continueTraining = true ∧ exTrainSt.optimizer = none)))
    ∧ (∀ k s', train exTrainCfgErr exTrainSt = .error (k, s') → s' = exTrainSt) :=
  c8_error_conditions exTrainCfgErr exTrainSt

/-! ## Claims C1, C2: shape contracts of the interaction functions -/

/-- Claim C1. For every interaction function, invoking it in broadcast
(`forward`) mode with head representations of prefix shape `(b_h, n_h)`,
relation representations of prefix shape `(b_r, n_r)`, and tail
representations of prefix shape `(b_t, n_t)` returns a score tensor of shape
`(max(b_h, b_r, b_t), n_h, n_r, n_t)`, except that the third dimension is `1`
for interactions whose `relation_shape` is empty. -/
theorem c1_forward_shape {σh σr σt α : Type} (I : Interaction σh σr σt α)
    (h : Rep σh) (r : Rep σr) (t : Rep σt) :
    (I.forward h r t).s1 = max h.b (max r.b t.b)
    ∧ (I.forward h r t).s2 = h.n
    ∧ (I.forward h r t).s3 = (if I.relationShapeEmpty then 1 else r.n)
    ∧ (I.forward h r t).s4 = t.n :=
  ⟨rfl, rfl, rfl, rfl⟩

/-- Claim C2. For every interaction function and every batch of `B`
(head, relation, tail) representations, `score_hrt` returns a score tensor of
shape `(B, 1)`; `score_h` and `score_t` over `E` candidate entities return a
tensor of shape `(B, E)`; and `score_r` over `R` candidate relations returns a
tensor of shape `(B, R)`, or `(B, 1)` when the `relation_shape` of the interaction
is empty.  (The `float32` dtype of the scores is abstracted: scores are exact
rationals in this model.) -/
theorem c2_score_shapes {σh σr σt α : Type} (I : Interaction σh σr σt α)
    (B E R : Nat) (hB : 0 < B)
    (h : BRep σh) (r : BRep σr) (t : BRep σt)
    (hs : BRep σh) (rs : BRep σr) (ts : BRep σt)
    (hhb : h.b = B) (hrb : r.b = B) (htb : t.b = B)
    (hhs : hs.b = E) (hrs : rs.b = R) (hts : ts.b = E) :
    ((I.score_hrt h r t).rows = B ∧ (I.score_hrt h r t).cols = 1)
    ∧ ((I.score_h hs r t).rows = B ∧ (I.score_h hs r t).cols = E)
    ∧ ((I.score_t h r ts).rows = B ∧ (I.score_t h r ts).cols = E)
    ∧ ((I.score_r h rs t).rows = B
        ∧ (I.score_r h rs t).cols = (if I.relationShapeEmpty then 1 else R)) := by
  cases hre : I.relationShapeEmpty <;>
    simp [Interaction.score_hrt, Interaction.score_h, Interaction.score_r,
      Interaction.score_t, Interaction.forward, Score4.view2, BRep.unsq0,
      BRep.unsq1, hre, hhb, hrb, htb, hhs, hrs, hts] <;>
    omega

/-- Witness for claim C2. The shape contract instantiated at a concrete interaction
with batch size 3, 7 candidate entities and 5 candidate relations. -/
theorem c2_score_shapes_witness :
    ((exInteraction.score_hrt (exBRep 3) (exBRep 3) (exBRep 3)).rows = 3
      ∧ (exInteraction.score_hrt (exBRep 3) (exBRep 3) (exBRep 3)).cols = 1)
    ∧ ((exInteraction.score_h (exBRep 7) (exBRep 3) (exBRep 3)).rows = 3
      ∧ (exInteraction.score_h (exBRep 7) (exBRep 3) (exBRep 3)).cols = 7)
    ∧ ((exInteraction.score_t (exBRep 3) (exBRep 3) (exBRep 7)).rows = 3
      ∧ (exInteraction.score_t (exBRep 3) (exBRep 3) (exBRep 7)).cols = 7)
    ∧ ((exInteraction.score_r (exBRep 3) (exBRep 5) (exBRep 3)).rows = 3
      ∧ (exInteraction.score_r (exBRep 3) (exBRep 5) (exBRep 3)).cols
          = (if exInteraction.relationShapeEmpty then 1 else 5)) :=
  c2_score_shapes exInteraction 3 7 5 (by decide)
    (exBRep 3) (exBRep 3) (exBRep 3) (exBRep 7) (exBRep 5) (exBRep 7)
    rfl rfl rfl rfl rfl rfl

/-! ## Claim C10: translational interactions score nonpositively -/

theorem allModesNonpos_of_kernel {σh σr σt : Type} (I : Interaction σh σr σt ℚ)
    (hf : ∀ a b c, I.f a b c ≤ 0) : allModesNonpos I := by
  refine ⟨?_, ?_, ?_, ?_, ?_⟩ <;> intros <;> exact hf _ _ _

/-- Claim C10. Every translational interaction function (TransE, TransD,
TransH, TransR, Structured Embedding, Unstructured Model) produces scores that
are less than or equal to zero for all inputs, in every scoring mode
(`score_hrt`, `score_h`, `score_r`, `score_t`, and broadcast `forward`), for
every nonnegative norm. -/
theorem c10_translational_nonpositive (de dr : Nat)
    (nrmE : Vec de → ℚ) (nrmR : Vec dr → ℚ) (cnrm : Vec dr → ℚ)
    (hE : ∀ v, 0 ≤ nrmE v) (hR : ∀ v, 0 ≤ nrmR v) :
    allModesNonpos (transEInteraction de nrmE)
    ∧ allModesNonpos (transHInteraction de nrmE)
    ∧ allModesNonpos (transRInteraction de dr nrmR)
    ∧ allModesNonpos (transDInteraction de dr cnrm nrmR)
    ∧ allModesNonpos (structuredEmbeddingInteraction de nrmE)
    ∧ allModesNonpos (unstructuredModelInteraction de nrmE) := by
  refine ⟨?_, ?_, ?_, ?_, ?_, ?_⟩ <;>
    apply allModesNonpos_of_kernel <;>
    intro a b c <;>
    exact neg_nonpos.mpr (by first | exact hE _ | exact hR _)

/-- Witness for claim C10. The nonpositivity of all modes instantiated at dimension
1 with the absolute-value norm. -/
theorem c10_translational_nonpositive_witness :
    allModesNonpos (transEInteraction 1 exNorm)
    ∧ allModesNonpos (transHInteraction 1 exNorm)
    ∧ allModesNonpos (transRInteraction 1 1 exNorm)
    ∧ allModesNonpos (transDInteraction 1 1 exNorm exNorm)
    ∧ allModesNonpos (structuredEmbeddingInteraction 1 exNorm)
    ∧ allModesNonpos (unstructuredModelInteraction 1 exNorm) :=
  c10_translational_nonpositive 1 1 exNorm exNorm exNorm
    (fun v => abs_nonneg (v 0)) (fun v => abs_nonneg (v 0))

/-! ## Claim C3: slicing equivalence -/

theorem idx_div (i j b : Nat) (hj : j < b) : (i * b + j) / b = i := by
  have hb : 0 < b := by omega
  rw [Nat.add_comm, Nat.add_mul_div_right _ _ hb, Nat.div_eq_of_lt hj,
    Nat.zero_add]

theorem idx_mod (i j b : Nat) (hj : j < b) : (i * b + j) % b = j := by
  rw [Nat.add_comm, Nat.add_mul_mod_self_right]
  exact Nat.mod_eq_of_lt hj

theorem score_t_data {σh σr σt α : Type} (I : Interaction σh σr σt α)
    (h : BRep σh) (r : BRep σr) (ts : BRep σt) (i j : Nat) (hj : j < ts.b) :
    (I.score_t h r ts).data i j
      = I.f (h.data (i % h.b)) (r.data (i % r.b)) (ts.data j) := by
  cases hre : I.relationShapeEmpty <;>
    simp [Interaction.score_t, Interaction.forward, Score4.view2, BRep.unsq0,
      BRep.unsq1, hre, idx_div i j ts.b hj, idx_mod i j ts.b hj]

theorem score_h_data {σh σr σt α : Type} (I : Interaction σh σr σt α)
    (hs : BRep σh) (r : BRep σr) (t : BRep σt) (i j : Nat) (hj : j < hs.b) :
    (I.score_h hs r t).data i j
      = I.f (hs.data j) (r.data (i % r.b)) (t.data (i % t.b)) := by
  cases hre : I.relationShapeEmpty <;>
    simp [Interaction.score_h, Interaction.forward, Score4.view2, BRep.unsq0,
      BRep.unsq1, hre, idx_div i j hs.b hj, idx_mod i j hs.b hj]

theorem score_r_data {σh σr σt α : Type} (I : Interaction σh σr σt α)
    (hre : I.relationShapeEmpty = false)
    (h : BRep σh) (rs : BRep σr) (t : BRep σt) (i j : Nat) (hj : j < rs.b) :
    (I.score_r h rs t).data i j
      = I.f (h.data (i % h.b)) (rs.data j) (t.data (i % t.b)) := by
  simp [Interaction.score_r, Interaction.forward, Score4.view2, BRep.unsq0,
    BRep.unsq1, hre, idx_div i j rs.b hj, idx_mod i j rs.b hj]

theorem score_t_cols {σh σr σt α : Type} (I : Interaction σh σr σt α)
    (h : BRep σh) (r : BRep σr) (ts : BRep σt) :
    (I.score_t h r ts).cols = ts.b := by
  cases hre : I.relationShapeEmpty <;>
    simp [Interaction.score_t, Interaction.forward, Score4.view2, BRep.unsq0,
      BRep.unsq1, hre]

theorem score_h_cols {σh σr σt α : Type} (I : Interaction σh σr σt α)
    (hs : BRep σh) (r : BRep σr) (t : BRep σt) :
    (I.score_h hs r t).cols = hs.b := by
  cases hre : I.relationShapeEmpty <;>
    simp [Interaction.score_h, Interaction.forward, Score4.view2, BRep.unsq0,
      BRep.unsq1, hre]

theorem score_r_cols {σh σr σt α : Type} (I : Interaction σh σr σt α)
    (hre : I.relationShapeEmpty = false)
    (h : BRep σh) (rs : BRep σr) (t : BRep σt) :
    (I.score_r h rs t).cols = rs.b := by
  simp [Interaction.score_r, Interaction.forward, Score4.view2, BRep.unsq0,
    BRep.unsq1, hre]

theorem chunk_b {σ : Type} (x : BRep σ) (s m : Nat) :
    (x.chunk s m).b = min s (x.b - m * s) := rfl

theorem cat2_rows_cons {α : Type} [Inhabited α] (x : Score2 α)
    (l : List (Score2 α)) : (cat2 (x :: l)).rows = x.rows := rfl

theorem cat2_data_cons {α : Type} [Inhabited α] (x : Score2 α)
    (l : List (Score2 α)) (i j : Nat) :
    (cat2 (x :: l)).data i j
      = if j < x.cols then x.data i j else (cat2 l).data i (j - x.cols) := rfl

theorem cat2_cols {α : Type} [Inhabited α] :
    ∀ l : List (Score2 α), (cat2 l).cols = (l.map Score2.cols).sum
  | [] => rfl
  | x :: l => by
    simp only [cat2, List.map_cons, List.sum_cons]
    rw [cat2_cols l]

theorem sum_chunk_sizes (s : Nat) :
    ∀ (k m E : Nat), E ≤ (m + k) * s →
      ((List.range' m k).map (fun l => min s (E - l * s))).sum = E - m * s := by
  intro k
  induction k with
  | zero =>
    intro m E hE
    simp only [Nat.add_zero] at hE
    simp only [List.range'_zero, List.map_nil, List.sum_nil]
    omega
  | succ k ih =>
    intro m E hE
    rw [List.range'_succ]
    simp only [List.map_cons, List.sum_cons]
    rw [ih (m + 1) E (by rw [show (m + 1) + k = m + (k + 1) from by omega]; exact hE)]
    rw [show (m + 1) * s = m * s + s from by ring]
    generalize m * s = A
    omega

theorem le_numChunks_mul (E s : Nat) (hs : 0 < s) : E ≤ numChunks E s * s := by
  unfold numChunks
  have h1 := Nat.div_add_mod (E + s - 1) s
  have h2 : (E + s - 1) % s < s := Nat.mod_lt _ hs
  rw [Nat.mul_comm]
  generalize hA : s * ((E + s - 1) / s) = A at h1 ⊢
  omega

theorem numChunks_pos (E s : Nat) (hs : 0 < s) (hE : 0 < E) :
    0 < numChunks E s := by
  unfold numChunks
  exact Nat.div_pos (by omega) hs

theorem score_t_sliced_data_aux {σh σr σt α : Type} [Inhabited α]
    (I : Interaction σh σr σt α) (h : BRep σh) (r : BRep σr) (ts : BRep σt)
    (s : Nat) :
    ∀ (k m i j : Nat), m * s + j < ts.b → ts.b ≤ (m + k) * s →
      (cat2 ((List.range' m k).map
        (fun l => I.score_t h r (ts.chunk s l)))).data i j
        = I.f (h.data (i % h.b)) (r.data (i % r.b)) (ts.data (m * s + j)) := by
  intro k
  induction k with
  | zero =>
    intro m i j hj hcov
    exfalso
    simp only [Nat.add_zero] at hcov
    generalize m * s = A at hj hcov
    omega
  | succ k ih =>
    intro m i j hj hcov
    rw [List.range'_succ, List.map_cons, cat2_data_cons, score_t_cols, chunk_b]
    by_cases hjc : j < min s (ts.b - m * s)
    · rw [if_pos hjc]
      rw [score_t_data I h r (ts.chunk s m) i j (by rw [chunk_b]; exact hjc)]
      rfl
    · rw [if_neg hjc]
      push_neg at hjc
      have hmin : min s (ts.b - m * s) = s := by
        generalize m * s = A at hj hjc ⊢
        omega
      rw [hmin] at hjc ⊢
      have harith : (m + 1) * s + (j - s) = m * s + j := by
        rw [show (m + 1) * s = m * s + s from by ring]
        generalize m * s = A
        omega
      rw [ih (m + 1) i (j - s) (by rw [harith]; exact hj)
        (by rw [show (m + 1) + k = m + (k + 1) from by omega]; exact hcov)]
      rw [harith]

theorem score_h_sliced_data_aux {σh σr σt α : Type} [Inhabited α]
    (I : Interaction σh σr σt α) (hs : BRep σh) (r : BRep σr) (t : BRep σt)
    (s : Nat) :
    ∀ (k m i j : Nat), m * s + j < hs.b → hs.b ≤ (m + k) * s →
      (cat2 ((List.range' m k).map
        (fun l => I.score_h (hs.chunk s l) r t))).data i j
        = I.f (hs.data (m * s + j)) (r.data (i % r.b)) (t.data (i % t.b)) := by
  intro k
  induction k with
  | zero =>
    intro m i j hj hcov
    exfalso
    simp only [Nat.add_zero] at hcov
    generalize m * s = A at hj hcov
    omega
  | succ k ih =>
    intro m i j hj hcov
    rw [List.range'_succ, List.map_cons, cat2_data_cons, score_h_cols, chunk_b]
    by_cases hjc : j < min s (hs.b - m * s)
    · rw [if_pos hjc]
      rw [score_h_data I (hs.chunk s m) r t i j (by rw [chunk_b]; exact hjc)]
      rfl
    · rw [if_neg hjc]
      push_neg at hjc
      have hmin : min s (hs.b - m * s) = s := by
        generalize m * s = A at hj hjc ⊢
        omega
      rw [hmin] at hjc ⊢
      have harith : (m + 1) * s + (j - s) = m * s + j := by
        rw [show (m + 1) * s = m * s + s from by ring]
        generalize m * s = A
        omega
      rw [ih (m + 1) i (j - s) (by rw [harith]; exact hj)
        (by rw [show (m + 1) + k = m + (k + 1) from by omega]; exact hcov)]
      rw [harith]

theorem score_r_sliced_data_aux {σh σr σt α : Type} [Inhabited α]
    (I : Interaction σh σr σt α) (hre : I.relationShapeEmpty = false)
    (h : BRep σh) (rs : BRep σr) (t : BRep σt) (s : Nat) :
    ∀ (k m i j : Nat), m * s + j < rs.b → rs.b ≤ (m + k) * s →
      (cat2 ((List.range' m k).map
        (fun l => I.score_r h (rs.chunk s l) t))).data i j
        = I.f (h.data (i % h.b)) (rs.data (m * s + j)) (t.data (i % t.b)) := by
  intro k
  induction k with
  | zero =>
    intro m i j hj hcov
    exfalso
    simp only [Nat.add_zero] at hcov
    generalize m * s = A at hj hcov
    omega
  | succ k ih =>
    intro m i j hj hcov
    rw [List.range'_succ, List.map_cons, cat2_data_cons, score_r_cols I hre,
      chunk_b]
    by_cases hjc : j < min s (rs.b - m * s)
    · rw [if_pos hjc]
      rw [score_r_data I hre h (rs.chunk s m) t i j (by rw [chunk_b]; exact hjc)]
      rfl
    · rw [if_neg hjc]
      push_neg at hjc
      have hmin : min s (rs.b - m * s) = s := by
        generalize m * s = A at hj hjc ⊢
        omega
      rw [hmin] at hjc ⊢
      have harith : (m + 1) * s + (j - s) = m * s + j := by
        rw [show (m + 1) * s = m * s + s from by ring]
        generalize m * s = A
        omega
      rw [ih (m + 1) i (j - s) (by rw [harith]; exact hj)
        (by rw [show (m + 1) + k = m + (k + 1) from by omega]; exact hcov)]
      rw [harith]

theorem score_t_sliced_equiv {σh σr σt α : Type} [Inhabited α]
    (I : Interaction σh σr σt α) (h : BRep σh) (r : BRep σr) (ts : BRep σt)
    (s : Nat) (hs : 0 < s) (hE : 0 < ts.b) :
    score2EquivOn (I.score_t_sliced h r ts s) (I.score_t h r ts) := by
  have hk : 0 < numChunks ts.b s := numChunks_pos ts.b s hs hE
  have hcols : (I.score_t_sliced h r ts s).cols = (I.score_t h r ts).cols := by
    unfold Interaction.score_t_sliced
    rw [cat2_cols, List.map_map]
    have hmaps : (List.range (numChunks ts.b s)).map
        (Score2.cols ∘ (fun l => I.score_t h r (ts.chunk s l)))
        = (List.range (numChunks ts.b s)).map (fun l => min s (ts.b - l * s)) := by
      apply List.map_congr_left
      intro l _
      simp [Function.comp, score_t_cols, chunk_b]
    rw [hmaps, List.range_eq_range',
      sum_chunk_sizes s (numChunks ts.b s) 0 ts.b
        (by simpa using le_numChunks_mul ts.b s hs),
      score_t_cols]
    simp
  refine ⟨?_, hcols, ?_⟩
  · obtain ⟨k, hkk⟩ : ∃ k, numChunks ts.b s = k + 1 :=
      ⟨numChunks ts.b s - 1, by omega⟩
    unfold Interaction.score_t_sliced
    rw [hkk, List.range_eq_range', List.range'_succ, List.map_cons,
      cat2_rows_cons]
    rfl
  · intro i j hi hj
    rw [hcols, score_t_cols] at hj
    unfold Interaction.score_t_sliced
    rw [List.range_eq_range',
      score_t_sliced_data_aux I h r ts s (numChunks ts.b s) 0 i j
        (by simpa using hj) (by simpa using le_numChunks_mul ts.b s hs),
      score_t_data I h r ts i j hj]
    simp

theorem score_h_sliced_equiv {σh σr σt α : Type} [Inhabited α]
    (I : Interaction σh σr σt α) (hs : BRep σh) (r : BRep σr) (t : BRep σt)
    (s : Nat) (hsl : 0 < s) (hE : 0 < hs.b) :
    score2EquivOn (I.score_h_sliced hs r t s) (I.score_h hs r t) := by
  have hk : 0 < numChunks hs.b s := numChunks_pos hs.b s hsl hE
  have hcols : (I.score_h_sliced hs r t s).cols = (I.score_h hs r t).cols := by
    unfold Interaction.score_h_sliced
    rw [cat2_cols, List.map_map]
    have hmaps : (List.range (numChunks hs.b s)).map
        (Score2.cols ∘ (fun l => I.score_h (hs.chunk s l) r t))
        = (List.range (numChunks hs.b s)).map (fun l => min s (hs.b - l * s)) := by
      apply List.map_congr_left
      intro l _
      simp [Function.comp, score_h_cols, chunk_b]
    rw [hmaps, List.range_eq_range',
      sum_chunk_sizes s (numChunks hs.b s) 0 hs.b
        (by simpa using le_numChunks_mul hs.b s hsl),
      score_h_cols]
    simp
  refine ⟨?_, hcols, ?_⟩
  · obtain ⟨k, hkk⟩ : ∃ k, numChunks hs.b s = k + 1 :=
      ⟨numChunks hs.b s - 1, by omega⟩
    unfold Interaction.score_h_sliced
    rw [hkk, List.range_eq_range', List.range'_succ, List.map_cons,
      cat2_rows_cons]
    rfl
  · intro i j hi hj
    rw [hcols, score_h_cols] at hj
    unfold Interaction.score_h_sliced
    rw [List.range_eq_range',
      score_h_sliced_data_aux I hs r t s (numChunks hs.b s) 0 i j
        (by simpa using hj) (by simpa using le_numChunks_mul hs.b s hsl),
      score_h_data I hs r t i j hj]
    simp

theorem score_r_sliced_equiv {σh σr σt α : Type} [Inhabited α]
    (I : Interaction σh σr σt α) (hre : I.relationShapeEmpty = false)
    (h : BRep σh) (rs : BRep σr) (t : BRep σt)
    (s : Nat) (hsl : 0 < s) (hE : 0 < rs.b) :
    score2EquivOn (I.score_r_sliced h rs t s) (I.score_r h rs t) := by
  have hk : 0 < numChunks rs.b s := numChunks_pos rs.b s hsl hE
  have hcols : (I.score_r_sliced h rs t s).cols = (I.score_r h rs t).cols := by
    unfold Interaction.score_r_sliced
    rw [cat2_cols, List.map_map]
    have hmaps : (List.range (numChunks rs.b s)).map
        (Score2.cols ∘ (fun l => I.score_r h (rs.chunk s l) t))
        = (List.range (numChunks rs.b s)).map (fun l => min s (rs.b - l * s)) := by
      apply List.map_congr_left
      intro l _
      simp [Function.comp, score_r_cols I hre, chunk_b]
    rw [hmaps, List.range_eq_range',
      sum_chunk_sizes s (numChunks rs.b s) 0 rs.b
        (by simpa using le_numChunks_mul rs.b s hsl),
      score_r_cols I hre]
    simp
  refine ⟨?_, hcols, ?_⟩
  · obtain ⟨k, hkk⟩ : ∃ k, numChunks rs.b s = k + 1 :=
      ⟨numChunks rs.b s - 1, by omega⟩
    unfold Interaction.score_r_sliced
    rw [hkk, List.range_eq_range', List.range'_succ, List.map_cons,
      cat2_rows_cons]
    rfl
  · intro i j hi hj
    rw [hcols, score_r_cols I hre] at hj
    unfold Interaction.score_r_sliced
    rw [List.range_eq_range',
      score_r_sliced_data_aux I hre h rs t s (numChunks rs.b s) 0 i j
        (by simpa using hj) (by simpa using le_numChunks_mul rs.b s hsl),
      score_r_data I hre h rs t i j hj]
    simp

/-- Claim C3, amended. For every interaction function in evaluation mode and
every valid (positive) slice size, the scores returned by `score_h` and
`score_t` with memory-saving slicing enabled are equal (same shape, same
entries — exactly, since scores are exact rationals here) to the scores
returned by the same call without slicing; the same holds for `score_r`
for interactions whose `relation_shape` is nonempty.  (For an empty
`relation_shape` the `score_r` equivalence fails; see the counterexample.) -/
theorem c3_slicing_equivalence {σh σr σt α : Type} [Inhabited α]
    (I : Interaction σh σr σt α) (s : Nat) (hs : 0 < s) :
    (∀ (cand : BRep σh) (r : BRep σr) (t : BRep σt), 0 < cand.b →
        score2EquivOn (I.score_h_sliced cand r t s) (I.score_h cand r t))
    ∧ (∀ (h : BRep σh) (r : BRep σr) (cand : BRep σt), 0 < cand.b →
        score2EquivOn (I.score_t_sliced h r cand s) (I.score_t h r cand))
    ∧ (I.relationShapeEmpty = false →
        ∀ (h : BRep σh) (cand : BRep σr) (t : BRep σt), 0 < cand.b →
          score2EquivOn (I.score_r_sliced h cand t s) (I.score_r h cand t)) :=
  ⟨fun cand r t hc => score_h_sliced_equiv I cand r t s hs hc,
   fun h r cand hc => score_t_sliced_equiv I h r cand s hs hc,
   fun hre h cand t hc => score_r_sliced_equiv I hre h cand t s hs hc⟩

/-- Witness for claim C3. The slicing equivalence instantiated at a concrete
interaction and slice size 2. -/
theorem c3_slicing_equivalence_witness :
    (∀ (cand : BRep ℚ) (r : BRep ℚ) (t : BRep ℚ), 0 < cand.b →
        score2EquivOn (exInteraction.score_h_sliced cand r t 2)
          (exInteraction.score_h cand r t))
    ∧ (∀ (h : BRep ℚ) (r : BRep ℚ) (cand : BRep ℚ), 0 < cand.b →
        score2EquivOn (exInteraction.score_t_sliced h r cand 2)
          (exInteraction.score_t h r cand))
    ∧ (exInteraction.relationShapeEmpty = false →
        ∀ (h : BRep ℚ) (cand : BRep ℚ) (t : BRep ℚ), 0 < cand.b →
          score2EquivOn (exInteraction.score_r_sliced h cand t 2)
            (exInteraction.score_r h cand t)) :=
  c3_slicing_equivalence exInteraction 2 (by decide)

/-- Counterexample for claim C3. For an interaction whose `relation_shape` is empty
(the unstructured model), `score_r` with slicing is *not* equal to `score_r`
without slicing: with 2 candidate relations and slice size 1 the sliced call
returns a score matrix with 2 columns while the unsliced call returns 1
column (this is why the test suite skips `test_score_r_slicing` for such
interactions).  Hence the claim as stated — slicing equivalence for *every*
interaction function and all three `score_*` methods — is false. -/
theorem c3_counterexample :
    ¬ score2EquivOn
        (exInteractionUM.score_r_sliced (exBRep 1) (exBRepUnit 2) (exBRep 1) 1)
        (exInteractionUM.score_r (exBRep 1) (exBRepUnit 2) (exBRep 1)) := by
  intro hc
  have h2 : (exInteractionUM.score_r_sliced (exBRep 1) (exBRepUnit 2)
      (exBRep 1) 1).cols = 2 := rfl
  have h1 : (exInteractionUM.score_r (exBRep 1) (exBRepUnit 2)
      (exBRep 1)).cols = 1 := rfl
  have := hc.2.1
  rw [h2, h1] at this
  cases this

/-! ## Claim C9: `make_predictions` -/

theorem make_predictions_eq {E R : Type} [DecidableEq E]
    (predict : Nat × Nat × Nat → ℚ)
    (entities : List E) (relations : List R)
    (entityToId : E → Nat) (relToId : R → Nat)
    (idToEntity : Nat → E) (idToRel : Nat → R) :
    make_predictions predict entities relations entityToId relToId idToEntity
        idToRel
      = (((relations.flatMap (fun rel => (allEntityPairs entities).map
            (fun pr => (pr.1, rel, pr.2)))).map
          (fun x => PredRow.mk (idToEntity (entityToId x.1))
            (idToRel (relToId x.2.1)) (idToEntity (entityToId x.2.2))
            (predict (entityToId x.1, relToId x.2.1, entityToId x.2.2)))).insertionSort
          scoreLE).filter (fun p => decide (p.sub ≠ p.obj)) := by
  unfold make_predictions create_triples
  dsimp only
  rw [List.zip_map', List.map_map, List.map_map]
  rfl

/-- Claim C9. The ranked triples returned by `make_predictions` contain only
triples whose subject differs from its object (self-loops are filtered out),
are ordered by predicted score in ascending order, and each returned row
carries its predicted score — the score the model gives the id-mapped
triple — as the final column.  (Hypotheses: the id dictionaries invert each
other on the given entities/relations, as for dictionaries built by
inversion, and the relation list is nonempty as required by
`relations[0]`.) -/
theorem c9_make_predictions {E R : Type} [DecidableEq E]
    (predict : Nat × Nat × Nat → ℚ)
    (entities : List E) (relations : List R)
    (entityToId : E → Nat) (relToId : R → Nat)
    (idToEntity : Nat → E) (idToRel : Nat → R)
    (_hrel : relations ≠ [])
    (hEinv : ∀ e ∈ entities, idToEntity (entityToId e) = e)
    (hRinv : ∀ rl ∈ relations, idToRel (relToId rl) = rl) :
    (∀ p ∈ make_predictions predict entities relations entityToId relToId
        idToEntity idToRel, p.sub ≠ p.obj)
    ∧ List.Pairwise scoreLE (make_predictions predict entities relations
        entityToId relToId idToEntity idToRel)
    ∧ (∀ p ∈ make_predictions predict entities relations entityToId relToId
        idToEntity idToRel,
        p.score = predict (entityToId p.sub, relToId p.rel, entityToId p.obj)) := by
  rw [make_predictions_eq]
  refine ⟨?_, ?_, ?_⟩
  · intro p hp
    have h := (List.mem_filter.mp hp).2
    simpa using h
  · exact List.Pairwise.sublist (List.filter_sublist _)
      (List.sorted_insertionSort scoreLE _)
  · intro p hp
    have h1 := List.mem_of_mem_filter hp
    have h2 := (List.perm_insertionSort scoreLE _).mem_iff.mp h1
    obtain ⟨x, hx, hpx⟩ := List.mem_map.mp h2
    obtain ⟨rel, hrelmem, hxrel⟩ := List.mem_flatMap.mp hx
    obtain ⟨pr, hprmem, hprx⟩ := List.mem_map.mp hxrel
    obtain ⟨a, hamem, hb⟩ := List.mem_flatMap.mp hprmem
    obtain ⟨o, homem, hpro⟩ := List.mem_map.mp hb
    subst hpro
    subst hprx
    subst hpx
    simp only []
    rw [hEinv a hamem, hRinv rel hrelmem, hEinv o homem]

/-- Witness for claim C9. The ranking contract instantiated at a concrete model
over two entities and one relation, with identity id maps. -/
theorem c9_make_predictions_witness :
    (∀ p ∈ make_predictions (fun _ => 0) [0, 1] [5] (fun e => e) (fun rl => rl)
        (fun n => n) (fun n => n), p.sub ≠ p.obj)
    ∧ List.Pairwise scoreLE (make_predictions (fun _ => 0) [0, 1] [5]
        (fun e => e) (fun rl => rl) (fun n => n) (fun n => n))
    ∧ (∀ p ∈ make_predictions (fun _ => 0) [0, 1] [5] (fun e => e)
        (fun rl => rl) (fun n => n) (fun n => n),
        p.score = (fun _ => (0 : ℚ)) (p.sub, p.rel, p.obj)) :=
  c9_make_predictions (fun _ => 0) [0, 1] [5] (fun e => e) (fun rl => rl)
    (fun n => n) (fun n => n) (by simp) (fun e _ => rfl) (fun rl _ => rfl)

/-! ## Claim C7: deterioration experiment caching -/

/-- Counterexample for claim C7. Not every grid cell is cached: for a dataset with
a `NO_RANDOM` threshold (here `0.6`, as for `WN18RR`), a cell with randomized
cleanup and ratio `0.9` above the threshold is skipped — `_help_loop` returns
no row and writes nothing to the cache directory — so the claim as stated
(quantified over *every* grid cell) is false. -/
theorem c7_counterexample :
    (helpLoop exDetEnvWn 0 0 [] (9/10) 1 true).row = none
    ∧ (helpLoop exDetEnvWn 0 0 [] (9/10) 1 true).cache = []
    ∧ (helpLoop exDetEnvWn 0 0 [] (9/10) 1 true).recomputed = false := by
  have hskip : skipCell exDetEnvWn (9/10) true = true := by
    simp only [skipCell, exDetEnvWn, exDetEnv]
    norm_num
  unfold helpLoop
  rw [if_pos (by rw [hskip])]
  exact ⟨rfl, rfl, rfl⟩

/-- Claim C7, amended. For every grid cell (ratio, cleanup mode, replicate)
that is *not* excluded by the `NO_RANDOM` skip rule, `_help_loop` caches its
result under the key derived from the ratio, replicate and cleanup mode; a
repeated call for the same cell — regardless of what the wall clock would now
measure — finds the file, loads the dataset and both timing values from it
without recomputing deterioration/cleanup, leaves the cache unchanged, and
produces the identical row. -/
theorem c7_cache_memoization {D : Type} (env : DetEnv D) (dt1 ct1 dt2 ct2 : ℚ)
    (fs : DetCache D) ( ratio : ℚ) (replicate : Nat) (randomizeCleanup : Bool)
    (hskip : skipCell env ratio randomizeCleanup = false)
    (hmiss : cacheGet fs (cacheKey ratio replicate randomizeCleanup) = none) :
    (helpLoop env dt1 ct1 fs ratio replicate randomizeCleanup).recomputed = true
    ∧ cacheGet (helpLoop env dt1 ct1 fs ratio replicate randomizeCleanup).cache
        (cacheKey ratio replicate randomizeCleanup)
        = some (env.cleanupFn (env.deteriorate ratio replicate) replicate
            randomizeCleanup, dt1, ct1)
    ∧ (helpLoop env dt2 ct2
        (helpLoop env dt1 ct1 fs ratio replicate randomizeCleanup).cache
        ratio replicate randomizeCleanup).recomputed = false
    ∧ (helpLoop env dt2 ct2
        (helpLoop env dt1 ct1 fs ratio replicate randomizeCleanup).cache
        ratio replicate randomizeCleanup).cache
        = (helpLoop env dt1 ct1 fs ratio replicate randomizeCleanup).cache
    ∧ (helpLoop env dt2 ct2
        (helpLoop env dt1 ct1 fs ratio replicate randomizeCleanup).cache
        ratio replicate randomizeCleanup).row
        = (helpLoop env dt1 ct1 fs ratio replicate randomizeCleanup).row := by
  have h1 : helpLoop env dt1 ct1 fs ratio replicate randomizeCleanup
      = { row := some (mkDetRow env ratio replicate randomizeCleanup
            (env.cleanupFn (env.deteriorate ratio replicate) replicate
              randomizeCleanup) dt1 ct1)
          cache := (cacheKey ratio replicate randomizeCleanup,
            (env.cleanupFn (env.deteriorate ratio replicate) replicate
              randomizeCleanup, dt1, ct1)) :: fs
          recomputed := true } := by
    unfold helpLoop
    rw [if_neg (by simp [hskip])]
    dsimp only
    rw [hmiss]
  have h2 : cacheGet ((cacheKey ratio replicate randomizeCleanup,
      (env.cleanupFn (env.deteriorate ratio replicate) replicate
        randomizeCleanup, dt1, ct1)) :: fs)
      (cacheKey ratio replicate randomizeCleanup)
      = some (env.cleanupFn (env.deteriorate ratio replicate) replicate
          randomizeCleanup, dt1, ct1) := by
    unfold cacheGet
    rw [if_pos rfl]
  have h3 : helpLoop env dt2 ct2 ((cacheKey ratio replicate randomizeCleanup,
      (env.cleanupFn (env.deteriorate ratio replicate) replicate
        randomizeCleanup, dt1, ct1)) :: fs) ratio replicate randomizeCleanup
      = { row := some (mkDetRow env ratio replicate randomizeCleanup
            (env.cleanupFn (env.deteriorate ratio replicate) replicate
              randomizeCleanup) dt1 ct1)
          cache := (cacheKey ratio replicate randomizeCleanup,
            (env.cleanupFn (env.deteriorate ratio replicate) replicate
              randomizeCleanup, dt1, ct1)) :: fs
          recomputed := false } := by
    unfold helpLoop
    rw [if_neg (by simp [hskip])]
    dsimp only
    rw [h2]
  rw [h1]
  exact ⟨rfl, h2, by rw [h3], by rw [h3], by rw [h3]⟩

/-- Witness for claim C7. The memoization property instantiated at a concrete
environment without a skip threshold, starting from an empty cache, with
different wall-clock measurements on the two calls. -/
theorem c7_cache_memoization_witness :
    (helpLoop exDetEnv 1 2 [] 1 1 false).recomputed = true
    ∧ cacheGet (helpLoop exDetEnv 1 2 [] 1 1 false).cache (cacheKey 1 1 false)
        = some (exDetEnv.cleanupFn (exDetEnv.deteriorate 1 1) 1 false, 1, 2)
    ∧ (helpLoop exDetEnv 3 4 (helpLoop exDetEnv 1 2 [] 1 1 false).cache 1 1
        false).recomputed = false
    ∧ (helpLoop exDetEnv 3 4 (helpLoop exDetEnv 1 2 [] 1 1 false).cache 1 1
        false).cache = (helpLoop exDetEnv 1 2 [] 1 1 false).cache
    ∧ (helpLoop exDetEnv 3 4 (helpLoop exDetEnv 1 2 [] 1 1 false).cache 1 1
        false).row = (helpLoop exDetEnv 1 2 [] 1 1 false).row :=
  c7_cache_memoization exDetEnv 1 2 3 4 [] 1 1 false rfl rfl

end PyKeen
